import Mathlib

/-!
Shallow embedding of `src/train.py` from the repository
`shizhediao/robert4qa-distributed`: the training/evaluation orchestration
core for extractive span selection (span loss, fuzzy-match scoring,
running-average metric accumulation, early stopping, the per-fold epoch
loop, and the distributed-mode configuration logic).

Floating-point tensor arithmetic is embedded over `ℝ` (for the
logit/softmax/cross-entropy layer) and `ℚ` (for the metric accumulators,
whose claims are exact arithmetic identities).  Components that live in
`utils.py` — which is not part of the source tree — are modelled from the
spec and marked as such.
-/

namespace Robert4qa

/-! ## Metric & Loss Engine -/

/-- Splitter on whitespace over a character list: `cur` holds the
(reversed) characters of the token being read. -/
def pySplitGo : List Char → List Char → List String
  | [], cur => if cur.isEmpty then [] else [String.mk cur.reverse]
  | c :: cs, cur =>
    if c.isWhitespace then
      if cur.isEmpty then pySplitGo cs []
      else String.mk cur.reverse :: pySplitGo cs []
    else pySplitGo cs (c :: cur)

/-- Modelled from the spec: `utils.py` is not in the source tree, so
Python's `str.split()` (whitespace split, dropping empty pieces) used by
`utils.jaccard` is modelled here: split on runs of whitespace characters
and keep the non-empty tokens. -/
def pySplit (s : String) : List String :=
  pySplitGo s.data []

/-- The set of whitespace-delimited tokens of a string. -/
def tokenSet (s : String) : Finset String :=
  (pySplit s).toFinset

/-- Modelled from the spec: `utils.jaccard` (called by `cal_jaccard` in
`train.py` line 33) is not in the source tree.  Per the spec it is the
token-set Jaccard similarity: split both strings on whitespace into sets
of tokens, score `|intersection| / |union|`, defined as `1` when both
token sets are empty. -/
def jaccard (a b : String) : ℚ :=
  if tokenSet a = ∅ ∧ tokenSet b = ∅ then 1
  else ((tokenSet a ∩ tokenSet b).card : ℚ) / ((tokenSet a ∪ tokenSet b).card : ℚ)

/-- Python string slicing `s[a:b]` with the usual clamping semantics. -/
def pySlice (s : String) (a b : ℕ) : String :=
  ⟨(s.data.drop a).take (b - a)⟩

/-- Source: `cal_jaccard` (`train.py` lines 27–34): clamp `idx_end` up to
`idx_start` when reversed, concatenate the character spans of the token
positions `idx_start .. idx_end`, and score the result against the target
with `utils.jaccard`.  Offsets out of range are read as `(0, 0)`. -/
def cal_jaccard (tweet target : String) (idxStart idxEnd : ℕ)
    (inputOffsets : List (ℕ × ℕ)) : ℚ × String :=
  let e := if idxEnd < idxStart then idxStart else idxEnd
  let output := (List.range (e - idxStart + 1)).foldl
    (fun acc k =>
      let off := inputOffsets.getD (idxStart + k) (0, 0)
      acc ++ pySlice tweet off.1 off.2) ""
  (jaccard target output, output)

/-! ## Early-Stopping Controller

`utils.EarlyStopping` is not in the source tree; it is modelled from the
spec (§4.4): higher-is-better mode, strict improvement comparison,
counter reaching `patience` transitions to the terminal stopped state,
checkpoint written exactly on first call and on strict improvement. -/

/-- Modelled from the spec: best-score state of `utils.EarlyStopping`
(patience, consecutive non-improvement counter, best-seen value, stop
flag). -/
structure EarlyStopping where
  patience : ℕ
  counter : ℕ
  bestScore : Option ℚ
  earlyStop : Bool
deriving Repr, DecidableEq

/-- Fresh controller, as constructed at `train.py` line 193. -/
def EarlyStopping.init (patience : ℕ) : EarlyStopping :=
  ⟨patience, 0, none, false⟩

/-- Modelled from the spec: one call of the controller with a new metric
value.  Returns the new state and whether the model snapshot was
persisted (overwriting the destination path) on this call. -/
def EarlyStopping.call (es : EarlyStopping) (score : ℚ) : EarlyStopping × Bool :=
  match es.bestScore with
  | none => (⟨es.patience, 0, some score, es.earlyStop⟩, true)
  | some best =>
    if best < score then
      (⟨es.patience, 0, some score, es.earlyStop⟩, true)
    else
      (⟨es.patience, es.counter + 1, some best,
        es.earlyStop || decide (es.patience ≤ es.counter + 1)⟩, false)

/-- Feed a score sequence to a fresh controller; return the final state
and the per-call checkpoint-written flags. -/
def esRun (patience : ℕ) (scores : List ℚ) : EarlyStopping × List Bool :=
  scores.foldl (fun st s =>
    let r := st.1.call s
    (r.1, st.2 ++ [r.2])) (EarlyStopping.init patience, [])

/-! ## Epoch Driver (`train_fn` / `eval_fn`) -/

/-- Modelled from the spec: `utils.AverageMeter` is not in the source
tree.  Per the spec (§3, §8) it holds a running sum and a running sample
count; `update (x, n)` adds `x * n` to the sum and `n` to the count. -/
structure AverageMeter where
  sum : ℚ
  count : ℕ
deriving Repr, DecidableEq

def AverageMeter.init : AverageMeter := ⟨0, 0⟩

def AverageMeter.update (m : AverageMeter) (val : ℚ) (n : ℕ) : AverageMeter :=
  ⟨m.sum + val * n, m.count + n⟩

/-- Current average: running sum over running count (0 before the first
update). -/
def AverageMeter.avg (m : AverageMeter) : ℚ :=
  if m.count = 0 then 0 else m.sum / (m.count : ℚ)

/-- `np.mean` of a list of rationals (0 on the empty list, which the
loop never produces: every batch is non-empty). -/
def npMean (l : List ℚ) : ℚ :=
  if l.length = 0 then 0 else l.sum / (l.length : ℚ)

/-- One batch as the epoch drivers consume it: the scalar loss value of
the batch and the per-sample fuzzy-match (jaccard) scores, whose length
is the batch size `input_ids.size(0)`. -/
structure BatchOutcome where
  loss : ℚ
  jaccardScores : List ℚ
deriving Repr, DecidableEq

/-- Loop state of `train_fn`/`eval_fn`: the two running meters and the
per-batch progress events (running loss average, running jaccard
average) pushed to the console bar after every batch. -/
structure EpochState where
  losses : AverageMeter
  jaccards : AverageMeter
  events : List (ℚ × ℚ)
deriving Repr, DecidableEq

def EpochState.init : EpochState := ⟨AverageMeter.init, AverageMeter.init, []⟩

/-- One iteration of the batch loop shared by `train_fn` (lines 44–73)
and `eval_fn` (lines 84–110): update both meters with the batch size as
weight, then report the two running averages. -/
def epochStep (st : EpochState) (b : BatchOutcome) : EpochState :=
  let n := b.jaccardScores.length
  let jaccards := st.jaccards.update (npMean b.jaccardScores) n
  let losses := st.losses.update b.loss n
  ⟨losses, jaccards, st.events ++ [(losses.avg, jaccards.avg)]⟩

def runEpoch (batches : List BatchOutcome) : EpochState :=
  batches.foldl epochStep EpochState.init

/-- Source: `eval_fn` (lines 75–112): runs the batch loop and returns
`jaccards.avg`. -/
def eval_fn (batches : List BatchOutcome) : ℚ :=
  (runEpoch batches).jaccards.avg

/-- Source: `train_fn` (lines 36–73): runs the same batch loop (updating model
state and the meters) but ends without a `return` statement, so the call
evaluates to Python `None` — embedded as `none`. -/
def train_fn (batches : List BatchOutcome) : Option ℚ :=
  let _ := runEpoch batches
  none

/-- The per-batch progress events a single process emits during one
evaluation epoch.  `eval_fn` (like `train_fn`) takes no rank argument
and applies no rank condition, so the events are the same in every
process; the unused `rank` parameter records which process runs it. -/
def perBatchEvents (rank : ℕ) (batches : List BatchOutcome) : List (ℚ × ℚ) :=
  let _ := rank
  (runEpoch batches).events

/-! ## Distributed configuration and the fold entry point (`train`) -/

/-- Source: `train.py` line 225: the module-level flag is hardcoded `True`, so
process-group initialization (lines 228–235) always runs. -/
def distributed : Bool := true

/-- What `train` (lines 168–175) does to the model once more than one
device is visible: wrap it in `torch.nn.parallel.DistributedDataParallel`
— the multi-process distributed wrapper — bound to this process's single
device `local_rank`. -/
structure WrapDecision where
  wrapped : Bool
  /-- the `device_ids` argument of the wrapper: the devices the wrapped
  module computes on -/
  deviceIds : List ℕ
  /-- Flag that is `true` when the wrapper used is the multi-process distributed one
  (`DistributedDataParallel`), as at line 172 -/
  distributedWrapper : Bool
deriving Repr, DecidableEq

def modelWrap (deviceCount localRank : ℕ) : WrapDecision :=
  if 1 < deviceCount then ⟨true, [localRank], true⟩ else ⟨false, [], false⟩

/-- Source: `train` lines 168–186: `num_device` is assigned only inside the
`device_count > 1` branch, yet the optimizer construction at line 186
reads it unconditionally (`lr = lr * num_device`).  With at most one
device the name is unbound and Python raises `NameError` there, before
the epoch loop.  The embedding returns the effective learning rate or
the error. -/
def optimizerLr (deviceCount : ℕ) (lr : ℚ) : Except String ℚ :=
  let numDevice : Option ℕ := if 1 < deviceCount then some deviceCount else none
  match numDevice with
  | some nd => Except.ok (lr * (nd : ℚ))
  | none => Except.error "NameError: name num_device is not defined"

/-- The per-fold epoch loop (`train` lines 196–210) in one process.
Each list element is the fold's validation score for that epoch; the
count of epochs actually executed is returned.  Only when
`gate` holds — i.e. `not distributed or rank == 0` (line 205) — does the
process feed the score to the controller and break on its stop flag. -/
def epochLoop (gate : Bool) : List ℚ → EarlyStopping → ℕ
  | [], _ => 0
  | s :: rest, es =>
    if gate then
      let r := es.call s
      if r.1.earlyStop then 1 else 1 + epochLoop gate rest r.1
    else 1 + epochLoop gate rest es

/-- Number of training+evaluation epochs a process of the given rank
executes for one fold, given the per-epoch validation scores.  The gate
condition is line 205 of `train.py`. -/
def epochsExecuted (dist : Bool) (rank : ℕ) (scores : List ℚ)
    (patience : ℕ) : ℕ :=
  epochLoop (!dist || rank == 0) scores (EarlyStopping.init patience)

/-- The fold entry point `train` up to and including its epoch loop:
optimizer construction (line 186) precedes the loop (line 196), so a
`NameError` there means zero epochs run. -/
def trainFold (deviceCount : ℕ) (lr : ℚ) (rank : ℕ) (scores : List ℚ)
    (patience : ℕ) : Except String ℕ := do
  let _ ← optimizerLr deviceCount lr
  pure (epochsExecuted distributed rank scores patience)

/-! ## Logits: softmax, argmax, cross-entropy -/

/-- First index of the maximal element, matching `np.argmax`: the
running best is replaced only on a strictly larger value. -/
def argmaxGo {α : Type} [LinearOrder α] : List α → α → ℕ → ℕ → ℕ
  | [], _, _, best => best
  | x :: xs, cur, i, best =>
    if cur < x then argmaxGo xs x (i + 1) i else argmaxGo xs cur (i + 1) best

/-- Embedding of `np.argmax` over a vector (0 on the empty vector, which `np.argmax`
rejects; the loops only ever pass length-`L` rows with `L > 0`). -/
def argmaxIdx {α : Type} [LinearOrder α] : List α → ℕ
  | [] => 0
  | x :: xs => argmaxGo xs x 1 0

/-- Embedding of `torch.softmax(v, dim)` along a row (`train.py` lines 62–63 and
98–99), over the reals. -/
noncomputable def softmax (l : List ℝ) : List ℝ :=
  let s := (l.map Real.exp).sum
  l.map (fun x => Real.exp x / s)

/-- Embedding of `nn.CrossEntropyLoss` on a single sample: negative log of the
softmax probability at the target index (out-of-range targets read the
logit default 0; the loops only pass in-range targets). -/
noncomputable def crossEntropyLoss (logits : List ℝ) (target : ℕ) : ℝ :=
  -Real.log (Real.exp (logits.getD target 0) / (logits.map Real.exp).sum)

/-- Source: `cal_loss` (`train.py` lines 20–25): start cross-entropy plus end
cross-entropy. -/
noncomputable def cal_loss (startLogits endLogits : List ℝ)
    (startPositions endPositions : ℕ) : ℝ :=
  let startLoss := crossEntropyLoss startLogits startPositions
  let endLoss := crossEntropyLoss endLogits endPositions
  startLoss + endLoss

/-- Final controller state after feeding a score sequence to a given
starting state (the checkpoint flags of `esRun`, dropped). -/
def esFeed (es : EarlyStopping) (scores : List ℚ) : EarlyStopping :=
  scores.foldl (fun e s => (e.call s).1) es

/-- Stated from the spec for comparison with `eval_fn`: the final
sample-count-weighted average of the per-batch fuzzy-match means — each
batch mean weighted by its batch size — across all batches. -/
def specWeightedAverage (batches : List BatchOutcome) : ℚ :=
  let total : ℕ := (batches.map (fun b => b.jaccardScores.length)).sum
  if total = 0 then 0
  else (batches.map (fun b => npMean b.jaccardScores * (b.jaccardScores.length : ℚ))).sum
    / (total : ℚ)

/-- Whether the per-epoch validation-score line is printed by a process
(`train.py` line 205: `not distributed or rank == 0`). -/
def epochScorePrinted (dist : Bool) (rank : ℕ) : Bool :=
  !dist || rank == 0

/-! ## Theorems for the claims -/

/-- C5: `character_overlap_score` (embedded as `jaccard`) is symmetric,
always lies in `[0, 1]`, equals `|intersection| / |union|` of the
whitespace-token sets whenever the two token sets are not both empty,
and is exactly `1` when both token sets are empty — in particular on the
pair of empty strings. -/
theorem C5_character_overlap_score :
    (∀ a b : String, jaccard a b = jaccard b a) ∧
    (∀ a b : String, 0 ≤ jaccard a b ∧ jaccard a b ≤ 1) ∧
    (∀ a b : String, ¬(tokenSet a = ∅ ∧ tokenSet b = ∅) →
      jaccard a b =
        ((tokenSet a ∩ tokenSet b).card : ℚ) / ((tokenSet a ∪ tokenSet b).card : ℚ)) ∧
    (∀ a b : String, tokenSet a = ∅ → tokenSet b = ∅ → jaccard a b = 1) ∧
    jaccard "" "" = 1 := by
  refine ⟨?_, ?_, ?_, ?_, ?_⟩
  · intro a b
    by_cases ha : tokenSet a = ∅ <;> by_cases hb : tokenSet b = ∅ <;>
      simp only [jaccard, ha, hb, and_self, and_true, and_false, false_and,
        if_true, if_false, true_and] <;>
      rw [Finset.inter_comm, Finset.union_comm]
  · intro a b
    unfold jaccard
    by_cases h : tokenSet a = ∅ ∧ tokenSet b = ∅
    · rw [if_pos h]; exact ⟨zero_le_one, le_refl 1⟩
    · rw [if_neg h]
      have hcard : 0 < (tokenSet a ∪ tokenSet b).card := by
        rw [Finset.card_pos, Finset.nonempty_iff_ne_empty]
        intro hu
        exact h (Finset.union_eq_empty.mp hu)
      have hle : (tokenSet a ∩ tokenSet b).card ≤ (tokenSet a ∪ tokenSet b).card :=
        Finset.card_le_card Finset.inter_subset_union
      constructor
      · exact div_nonneg (by positivity) (by positivity)
      · rw [div_le_one (by exact_mod_cast hcard)]
        exact_mod_cast hle
  · intro a b h
    rw [jaccard, if_neg h]
  · intro a b ha hb
    rw [jaccard, if_pos ⟨ha, hb⟩]
  · rw [jaccard, if_pos]
    exact ⟨rfl, rfl⟩

/-- Witness for C5 at concrete inputs: the conditional conjuncts applied
to `"ab"`/`""` (token sets not both empty) and `""`/`""` (both empty). -/
theorem C5_witness :
    jaccard "ab" "" =
      ((tokenSet "ab" ∩ tokenSet "").card : ℚ) / ((tokenSet "ab" ∪ tokenSet "").card : ℚ) ∧
    jaccard "" "" = 1 :=
  ⟨C5_character_overlap_score.2.2.1 "ab" "" (fun h => by
      have := h.1
      revert this
      decide),
   C5_character_overlap_score.2.2.2.1 "" "" rfl rfl⟩

/-- C4: span-text extraction with a reversed index pair (`idx_end <
idx_start`) is silently clamped: `cal_jaccard` — the extracted span text
and the fuzzy-match score computed from it — returns exactly the result
of the call with `idx_end` replaced by `idx_start`. -/
theorem C4_reversed_span_clamped :
    ∀ (tweet target : String) (idxStart idxEnd : ℕ) (offs : List (ℕ × ℕ)),
      idxEnd < idxStart →
      cal_jaccard tweet target idxStart idxEnd offs =
        cal_jaccard tweet target idxStart idxStart offs := by
  intro tweet target s e offs h
  simp [cal_jaccard, h]

/-- Witness for C4 at a concrete reversed range (end index 0, start
index 2). -/
theorem C4_witness :
    cal_jaccard "ab cd" "ab" 2 0 [(0, 2), (2, 3), (3, 5)] =
      cal_jaccard "ab cd" "ab" 2 2 [(0, 2), (2, 3), (3, 5)] :=
  C4_reversed_span_clamped "ab cd" "ab" 2 0 [(0, 2), (2, 3), (3, 5)] (by decide)

/-- C1: the Early-Stopping Controller contract.  First call: counter
reset to zero, best-seen value set, snapshot persisted.  Strict
improvement: same.  Equality or decrease: counter incremented, no
snapshot, stop flag set when the counter reaches `patience`.  In
particular, with `patience = 2` and scores `[0.5, 0.5, 0.5]` the stop
flag is set exactly after the third value and only the first value's
checkpoint is ever written. -/
theorem C1_early_stopping_contract :
    (∀ (p : ℕ) (s : ℚ),
      (EarlyStopping.init p).call s = (⟨p, 0, some s, false⟩, true)) ∧
    (∀ (es : EarlyStopping) (b s : ℚ), es.bestScore = some b → b < s →
      es.call s = (⟨es.patience, 0, some s, es.earlyStop⟩, true)) ∧
    (∀ (es : EarlyStopping) (b s : ℚ), es.bestScore = some b → s ≤ b →
      es.call s = (⟨es.patience, es.counter + 1, some b,
        es.earlyStop || decide (es.patience ≤ es.counter + 1)⟩, false)) ∧
    ((esRun 2 [1/2, 1/2, 1/2]).1.earlyStop = true ∧
      (esRun 2 [1/2, 1/2]).1.earlyStop = false ∧
      (esRun 2 [1/2, 1/2, 1/2]).2 = [true, false, false]) := by
  refine ⟨?_, ?_, ?_, ?_, ?_, ?_⟩
  · intro p s; rfl
  · intro es b s hb hlt
    simp [EarlyStopping.call, hb, hlt]
  · intro es b s hb hle
    simp [EarlyStopping.call, hb, not_lt.mpr hle]
  · norm_num [esRun, EarlyStopping.init, EarlyStopping.call]
  · norm_num [esRun, EarlyStopping.init, EarlyStopping.call]
  · norm_num [esRun, EarlyStopping.init, EarlyStopping.call]

/-- Witness for C1: the improvement and non-improvement conjuncts
applied to concrete controller states (best 1, new score 2: improvement;
best 2, new score 2: plateau counts as non-improvement). -/
theorem C1_witness :
    (⟨2, 0, some 1, false⟩ : EarlyStopping).call 2 = (⟨2, 0, some 2, false⟩, true) ∧
    (⟨2, 0, some 2, false⟩ : EarlyStopping).call 2 = (⟨2, 1, some 2, false⟩, false) :=
  ⟨C1_early_stopping_contract.2.1 ⟨2, 0, some 1, false⟩ 1 2 rfl (by norm_num),
   C1_early_stopping_contract.2.2.1 ⟨2, 0, some 2, false⟩ 2 2 rfl (le_refl 2)⟩

/-- Counterexample for C8: on a run with two visible devices (and rank
0), the model wrap applied by `train` is the multi-process distributed
wrapper bound to this process's single device `[0]` — not a replication
across all visible devices `[0, 1]` — while the multi-process path
(`distributed = True`, hardcoded) is simultaneously active, so the two
paths are not mutually exclusive. -/
theorem C8_counterexample :
    modelWrap 2 0 = ⟨true, [0], true⟩ ∧
    distributed = true ∧
    ([0] : List ℕ) ≠ List.range 2 := by
  refine ⟨rfl, rfl, ?_⟩
  decide

/-- C8 amended: whenever more than one device is visible, the model is
wrapped with the multi-process `DistributedDataParallel` wrapper bound
to this process's single device; with at most one device no wrap is
applied; and the multi-process path is always active (`distributed` is
hardcoded `True`), so the branch coexists with it instead of excluding
it. -/
theorem C8_wrap_decision :
    (∀ (deviceCount localRank : ℕ), 1 < deviceCount →
      modelWrap deviceCount localRank = ⟨true, [localRank], true⟩) ∧
    (∀ (deviceCount localRank : ℕ), deviceCount ≤ 1 →
      modelWrap deviceCount localRank = ⟨false, [], false⟩) ∧
    distributed = true := by
  refine ⟨?_, ?_, rfl⟩
  · intro dc lr h
    rw [modelWrap, if_pos h]
  · intro dc lr h
    rw [modelWrap, if_neg (not_lt.mpr h)]

/-- Witness for C8 at two and at one visible device. -/
theorem C8_witness :
    modelWrap 2 1 = ⟨true, [1], true⟩ ∧ modelWrap 1 3 = ⟨false, [], false⟩ :=
  ⟨C8_wrap_decision.1 2 1 (by decide), C8_wrap_decision.2.1 1 3 (by decide)⟩

/-- C10: with at most one visible device, `num_device` is bound in no
branch, so the learning-rate expression `lr * num_device` at optimizer
construction raises `NameError` and the fold entry point fails before
its epoch loop — zero training or evaluation epochs execute. -/
theorem C10_single_device_name_error :
    ∀ (deviceCount : ℕ) (lr : ℚ) (rank : ℕ) (scores : List ℚ) (patience : ℕ),
      deviceCount ≤ 1 →
      optimizerLr deviceCount lr =
        Except.error "NameError: name num_device is not defined" ∧
      trainFold deviceCount lr rank scores patience =
        Except.error "NameError: name num_device is not defined" := by
  intro dc lr rank scores p h
  have hopt : optimizerLr dc lr =
      Except.error "NameError: name num_device is not defined" := by
    simp [optimizerLr, not_lt.mpr h]
  refine ⟨hopt, ?_⟩
  simp [trainFold, hopt, Except.bind]

/-- Witness for C10: a single-device run with the default learning rate
3e-5 fails at optimizer construction. -/
theorem C10_witness :
    optimizerLr 1 (3/100000) =
      Except.error "NameError: name num_device is not defined" ∧
    trainFold 1 (3/100000) 0 [1/2] 3 =
      Except.error "NameError: name num_device is not defined" :=
  C10_single_device_name_error 1 (3/100000) 0 [1/2] 3 (by decide)

/-- With the controller gate off (a distributed non-rank-0 process), the
epoch loop never breaks: it runs one epoch per score. -/
theorem epochLoop_gate_false :
    ∀ (scores : List ℚ) (es : EarlyStopping),
      epochLoop false scores es = scores.length := by
  intro scores
  induction scores with
  | nil => intro es; rfl
  | cons s rest ih =>
    intro es
    simp only [epochLoop, Bool.false_eq_true, if_false, ih, List.length_cons]
    omega

/-- With the controller gate on (non-distributed, or rank 0), the epoch
loop exits exactly when the controller first signals stop: the loop ran
past epoch `j` only if the flag was still unset after the first `j`
calls, and an exit before exhausting the scores happens with the flag
set. -/
theorem epochLoop_gate_true_spec :
    ∀ (scores : List ℚ) (es : EarlyStopping), es.earlyStop = false →
      (∀ j, j < epochLoop true scores es →
        (esFeed es (scores.take j)).earlyStop = false) ∧
      (epochLoop true scores es < scores.length →
        (esFeed es (scores.take (epochLoop true scores es))).earlyStop = true) := by
  intro scores
  induction scores with
  | nil =>
    intro es _
    exact ⟨fun j hj => absurd hj (Nat.not_lt_zero j), fun hlen => absurd hlen (by simp [epochLoop])⟩
  | cons s rest ih =>
    intro es h
    by_cases hstop : (es.call s).1.earlyStop
    · have hloop : epochLoop true (s :: rest) es = 1 := by
        simp only [epochLoop, if_true, hstop, if_pos]
      refine ⟨?_, ?_⟩
      · intro j hj
        rw [hloop] at hj
        interval_cases j
        exact h
      · intro _
        rw [hloop]
        simpa [esFeed] using hstop
    · have hstop' : (es.call s).1.earlyStop = false := by
        simpa using hstop
      have hloop : epochLoop true (s :: rest) es =
          1 + epochLoop true rest (es.call s).1 := by
        simp only [epochLoop, if_true, hstop', Bool.false_eq_true, if_false]
      obtain ⟨ihA, ihB⟩ := ih (es.call s).1 hstop'
      refine ⟨?_, ?_⟩
      · intro j hj
        rw [hloop] at hj
        cases j with
        | zero => exact h
        | succ j' =>
          rw [List.take_succ_cons]
          show (esFeed (es.call s).1 (rest.take j')).earlyStop = false
          exact ihA j' (by omega)
      · intro hlen
        rw [hloop] at hlen ⊢
        have hk : epochLoop true rest (es.call s).1 < rest.length := by
          simp only [List.length_cons] at hlen
          omega
        have h1 : 1 + epochLoop true rest (es.call s).1 =
            epochLoop true rest (es.call s).1 + 1 := by omega
        rw [h1, List.take_succ_cons]
        show (esFeed (es.call s).1 (rest.take (epochLoop true rest (es.call s).1))).earlyStop = true
        exact ihB hk

/-- Counterexample for C2: `distributed` is hardcoded `True`, and with
`patience = 1` a plateau of identical scores makes the controller signal
stop after its second call; the rank-0 process indeed exits after 2
epochs, but a rank-1 process executes all 5 epochs of the fold — it
never feeds the controller or checks its stop flag, contradicting the
claim for every participating process. -/
theorem C2_counterexample :
    distributed = true ∧
    (esFeed (EarlyStopping.init 1) [1/2, 1/2]).earlyStop = true ∧
    epochsExecuted distributed 1 [1/2, 1/2, 1/2, 1/2, 1/2] 1 = 5 ∧
    epochsExecuted distributed 0 [1/2, 1/2, 1/2, 1/2, 1/2] 1 = 2 := by
  refine ⟨rfl, ?_, ?_, ?_⟩
  · norm_num [esFeed, EarlyStopping.init, EarlyStopping.call]
  · norm_num [epochsExecuted, distributed, epochLoop, EarlyStopping.init, EarlyStopping.call]
  · norm_num [epochsExecuted, distributed, epochLoop, EarlyStopping.init, EarlyStopping.call]

/-- C2 amended: the stop-flag check exists only behind the gate of
`train.py` line 205.  Since `distributed` is hardcoded `True`, a
non-rank-0 process never feeds the controller and always executes one
epoch per scheduled score; the rank-0 process runs an epoch past the
first `j` only when the flag is still unset after `j` calls, and exits
before exhausting the epochs only with the flag set. -/
theorem C2_stop_check_rank0_only :
    (∀ (rank : ℕ) (scores : List ℚ) (patience : ℕ), rank ≠ 0 →
      epochsExecuted distributed rank scores patience = scores.length) ∧
    (∀ (scores : List ℚ) (patience j : ℕ),
      j < epochsExecuted distributed 0 scores patience →
      (esFeed (EarlyStopping.init patience) (scores.take j)).earlyStop = false) ∧
    (∀ (scores : List ℚ) (patience : ℕ),
      epochsExecuted distributed 0 scores patience < scores.length →
      (esFeed (EarlyStopping.init patience)
        (scores.take (epochsExecuted distributed 0 scores patience))).earlyStop = true) := by
  refine ⟨?_, ?_, ?_⟩
  · intro rank scores p hrank
    have hgate : (!distributed || rank == 0) = false := by
      simp [distributed, hrank]
    rw [epochsExecuted, hgate, epochLoop_gate_false]
  · intro scores p j hj
    have hgate : (!distributed || (0 : ℕ) == 0) = true := rfl
    rw [epochsExecuted, hgate] at hj
    exact (epochLoop_gate_true_spec scores (EarlyStopping.init p) rfl).1 j hj
  · intro scores p hlen
    have hgate : (!distributed || (0 : ℕ) == 0) = true := rfl
    rw [epochsExecuted, hgate] at hlen ⊢
    exact (epochLoop_gate_true_spec scores (EarlyStopping.init p) rfl).2 hlen

/-- Witness for C2 at concrete inputs: a rank-1 process runs all 3
epochs; for the rank-0 process with `patience = 1` the flag is unset
after the first call and set at the exit point (2 epochs of 3). -/
theorem C2_witness :
    epochsExecuted distributed 1 [1/2, 1/2, 1/2] 1 = 3 ∧
    (esFeed (EarlyStopping.init 1) (([1/2, 1/2, 1/2] : List ℚ).take 1)).earlyStop = false ∧
    (esFeed (EarlyStopping.init 1)
      (([1/2, 1/2, 1/2] : List ℚ).take
        (epochsExecuted distributed 0 [1/2, 1/2, 1/2] 1))).earlyStop = true :=
  ⟨C2_stop_check_rank0_only.1 1 [1/2, 1/2, 1/2] 1 (by decide),
   C2_stop_check_rank0_only.2.1 [1/2, 1/2, 1/2] 1 1
     (by norm_num [epochsExecuted, distributed, epochLoop, EarlyStopping.init,
       EarlyStopping.call]),
   C2_stop_check_rank0_only.2.2 [1/2, 1/2, 1/2] 1
     (by norm_num [epochsExecuted, distributed, epochLoop, EarlyStopping.init,
       EarlyStopping.call])⟩

/-- The jaccard meter after a whole epoch: its running sum accumulates
each batch mean weighted by the batch size, and its running count
accumulates the batch sizes. -/
theorem runEpoch_jaccard_meter :
    ∀ (batches : List BatchOutcome) (st : EpochState),
      (batches.foldl epochStep st).jaccards.sum =
        st.jaccards.sum +
          (batches.map (fun b => npMean b.jaccardScores * (b.jaccardScores.length : ℚ))).sum ∧
      (batches.foldl epochStep st).jaccards.count =
        st.jaccards.count + (batches.map (fun b => b.jaccardScores.length)).sum := by
  intro batches
  induction batches with
  | nil => intro st; simp
  | cons b bs ih =>
    intro st
    obtain ⟨ihS, ihC⟩ := ih (epochStep st b)
    rw [List.foldl_cons]
    constructor
    · rw [ihS]
      simp only [epochStep, AverageMeter.update, List.map_cons, List.sum_cons]
      ring
    · rw [ihC]
      simp only [epochStep, AverageMeter.update, List.map_cons, List.sum_cons]
      omega

/-- Counterexample for C3: on the one-batch input with a single sample
of score 1 the final running average is 1, which the evaluation driver
returns, while the training driver (which has no return statement)
returns `None` — not the final running average. -/
theorem C3_counterexample :
    train_fn [⟨1, [1]⟩] = none ∧
    eval_fn [⟨1, [1]⟩] = 1 ∧
    (none : Option ℚ) ≠ some 1 := by
  refine ⟨rfl, ?_, by simp⟩
  norm_num [eval_fn, runEpoch, epochStep, EpochState.init, AverageMeter.init,
    AverageMeter.update, AverageMeter.avg, npMean]

/-- C3 amended: the evaluation-mode driver returns the final
sample-count-weighted running average of the fuzzy-match score across
all batches; the training-mode driver maintains the same running
averages for progress reporting but returns nothing (Python `None`). -/
theorem C3_epoch_driver_return :
    ∀ batches : List BatchOutcome,
      eval_fn batches = specWeightedAverage batches ∧ train_fn batches = none := by
  intro batches
  refine ⟨?_, rfl⟩
  obtain ⟨hS, hC⟩ := runEpoch_jaccard_meter batches EpochState.init
  rw [eval_fn, AverageMeter.avg, specWeightedAverage]
  simp only [runEpoch] at *
  rw [hS, hC]
  simp [EpochState.init, AverageMeter.init]

/-- Every process appends exactly one progress event per batch. -/
theorem runEpoch_events_length :
    ∀ (batches : List BatchOutcome) (st : EpochState),
      (batches.foldl epochStep st).events.length = st.events.length + batches.length := by
  intro batches
  induction batches with
  | nil => intro st; simp
  | cons b bs ih =>
    intro st
    rw [List.foldl_cons, ih]
    simp only [epochStep]
    simp
    omega

/-- Counterexample for C9: in distributed mode (`distributed` is
hardcoded `True`) a rank-1 process still emits a per-batch progress
event for its batch — the epoch drivers apply no rank condition — so a
non-rank-0 process does not produce empty per-batch console output. -/
theorem C9_counterexample :
    distributed = true ∧
    perBatchEvents 1 [⟨1, [1]⟩] = [(1, 1)] ∧
    ([((1 : ℚ), (1 : ℚ))] : List (ℚ × ℚ)) ≠ [] := by
  refine ⟨rfl, ?_, by simp⟩
  norm_num [perBatchEvents, runEpoch, epochStep, EpochState.init, AverageMeter.init,
    AverageMeter.update, AverageMeter.avg, npMean]

/-- C9 amended: per-batch progress is emitted identically by every
process — the epoch drivers take no rank input, emit one event per
batch, and are called unconditionally — while only the per-epoch
validation-score print is gated to rank 0 in distributed mode. -/
theorem C9_progress_not_rank_gated :
    (∀ (r r' : ℕ) (batches : List BatchOutcome),
      perBatchEvents r batches = perBatchEvents r' batches) ∧
    (∀ (r : ℕ) (batches : List BatchOutcome),
      (perBatchEvents r batches).length = batches.length) ∧
    (∀ r : ℕ, epochScorePrinted distributed r = (r == 0)) := by
  refine ⟨fun r r' batches => rfl, ?_, fun r => rfl⟩
  intro r batches
  rw [perBatchEvents, runEpoch, runEpoch_events_length]
  simp [EpochState.init]

/-- Strictly monotone maps do not change the first-maximum scan: the
comparison at every step is preserved. -/
theorem argmaxGo_map {α β : Type} [LinearOrder α] [LinearOrder β] {f : α → β}
    (hf : StrictMono f) :
    ∀ (l : List α) (cur : α) (i best : ℕ),
      argmaxGo (l.map f) (f cur) i best = argmaxGo l cur i best := by
  intro l
  induction l with
  | nil => intro cur i best; rfl
  | cons x xs ih =>
    intro cur i best
    by_cases h : cur < x
    · simp only [List.map_cons, argmaxGo, if_pos (hf h), if_pos h, ih]
    · simp only [List.map_cons, argmaxGo,
        if_neg (fun hc => h (hf.lt_iff_lt.mp hc)), if_neg h, ih]

/-- The sum of exponentials of a non-empty logit vector is positive. -/
theorem sum_exp_pos (l : List ℝ) (h : l ≠ []) : 0 < (l.map Real.exp).sum := by
  apply List.sum_pos
  · intro y hy
    simp only [List.mem_map] at hy
    obtain ⟨z, _, rfl⟩ := hy
    exact Real.exp_pos z
  · cases l with
    | nil => exact absurd rfl h
    | cons a as => simp

/-- C6: softmax normalization along the position axis never changes the
arg-max position (`np.argmax` takes the first maximum; softmax is a
strictly monotone rescaling by the positive sum of exponentials), so the
predicted start and end indices derived after the softmax conversion
equal those computed on the raw logits. -/
theorem C6_softmax_preserves_argmax :
    ∀ logits : List ℝ, argmaxIdx (softmax logits) = argmaxIdx logits := by
  intro l
  match l with
  | [] => rfl
  | x :: xs =>
    have hs : 0 < ((x :: xs).map Real.exp).sum := sum_exp_pos (x :: xs) (by simp)
    have hf : StrictMono (fun y : ℝ => Real.exp y / ((x :: xs).map Real.exp).sum) := by
      intro a b hab
      exact (div_lt_div_iff_of_pos_right hs).mpr (Real.exp_lt_exp.mpr hab)
    show argmaxIdx ((x :: xs).map
      (fun y : ℝ => Real.exp y / ((x :: xs).map Real.exp).sum)) = argmaxIdx (x :: xs)
    rw [List.map_cons]
    simp only [argmaxIdx]
    exact argmaxGo_map hf xs x 1 0

/-- C7: `cal_loss` is the sum of the categorical cross-entropy of the
start logits against the true start index and that of the end logits
against the true end index; each term is the full unmasked
log-sum-exp over every position (padding included) minus the target
logit. -/
theorem C7_span_loss :
    (∀ (startLogits endLogits : List ℝ) (startPositions endPositions : ℕ),
      cal_loss startLogits endLogits startPositions endPositions =
        crossEntropyLoss startLogits startPositions +
          crossEntropyLoss endLogits endPositions) ∧
    (∀ (logits : List ℝ) (t : ℕ), logits ≠ [] →
      crossEntropyLoss logits t =
        Real.log ((logits.map Real.exp).sum) - logits.getD t 0) := by
  constructor
  · intro sl el sp ep; rfl
  · intro l t h
    have hS : 0 < (l.map Real.exp).sum := sum_exp_pos l h
    rw [crossEntropyLoss, Real.log_div (Real.exp_ne_zero _) (ne_of_gt hS), Real.log_exp]
    ring

/-- Witness for C7 at the spec's closed-form example (`start_logits =
[2,0,0]`, `end_logits = [0,0,2]`, `true_start = 0`, `true_end = 2`). -/
theorem C7_witness :
    cal_loss [2, 0, 0] [0, 0, 2] 0 2 =
      crossEntropyLoss [2, 0, 0] 0 + crossEntropyLoss [0, 0, 2] 2 ∧
    crossEntropyLoss [(2 : ℝ), 0, 0] 0 =
      Real.log (([(2 : ℝ), 0, 0].map Real.exp).sum) - [(2 : ℝ), 0, 0].getD 0 0 :=
  ⟨C7_span_loss.1 [2, 0, 0] [0, 0, 2] 0 2,
   C7_span_loss.2 [(2 : ℝ), 0, 0] 0 (by simp)⟩

end Robert4qa
